import Mathlib

/-!
Weather forecast MCP server: embedding of `server/main.go`.

The handler `weatherHandler` and its helper `generateForecast` are translated
function by function.  Everything the two functions obtain from outside the
repository (clock, process environment, the GenAI service) is read from an
explicit `Env`; the calls they make are recorded in an event trace, so that
"is never invoked" is a statement about that trace.

Go strings are embedded as Lean strings.  The routines of package `time` index
bytes; here they index characters.  Every accepting path of the layout
`2006-01-02` inspects ASCII digits and `-` only, so the accepted values and the
parsed dates are the same.

The packages `time`, `mcp` and `genai` are libraries, not code of the
repository: the functions and types the two functions use are modelled after
their Go declarations.  The `context.Context` argument is only handed on to the
GenAI calls and is left out.  A Go error is carried as its message, and a pair
of results `(value, error)` stays a pair, the error being `none` for `nil`.
-/

namespace WeatherForecast

/-! ## Package `time`, restricted to the layout `2006-01-02` -/

/-- Calendar view of a Go `time.Time` in UTC: the civil date and the time of day
(nanoseconds since midnight). -/
structure Time where
  year : Int
  month : Nat
  day : Nat
  nanos : Nat
  deriving DecidableEq

/-- Go `isDigit(s, i)`: index `i` is in range and holds a decimal digit. -/
def isDigit (s : List Char) (i : Nat) : Bool :=
  match s.get? i with
  | some c => decide (48 ≤ c.toNat) && decide (c.toNat ≤ 57)
  | none => false

/-- Go `leadingInt`: consumes the leading decimal digits of `s`, accumulating
onto `x`; fails on overflow of the 64-bit accumulator. -/
def leadingInt : List Char → Nat → Option (Nat × List Char)
  | [], x => some (x, [])
  | c :: cs, x =>
    if c.toNat < 48 || c.toNat > 57 then some (x, c :: cs)
    else if x > 2 ^ 63 / 10 then none
    else if x * 10 + (c.toNat - 48) > 2 ^ 63 then none
    else leadingInt cs (x * 10 + (c.toNat - 48))

/-- Go `atoi`: optional sign, then digits up to the end of the string. -/
def atoi (s : List Char) : Option Int :=
  let neg := decide (s.head? = some '-')
  let s1 := if s.head? = some '-' ∨ s.head? = some '+' then s.tail else s
  match leadingInt s1 0 with
  | none => none
  | some (q, rem) =>
    if rem.length > 0 then none
    else some (if neg then -(q : Int) else (q : Int))

/-- Go `getnum(s, fixed)`: a one- or two-digit number; with `fixed` two digits
are mandatory. -/
def getnum (s : List Char) (fixed : Bool) : Option (Nat × List Char) :=
  if !isDigit s 0 then none
  else if !isDigit s 1 then
    if fixed then none
    else some ((s.headD '0').toNat - 48, s.drop 1)
  else some (((s.headD '0').toNat - 48) * 10 + ((s.getD 1 '0').toNat - 48), s.drop 2)

/-- Go `skip(value, "-")`: the literal `-` between two layout elements. -/
def skipDash (value : List Char) : Option (List Char) :=
  match value with
  | [] => none
  | c :: rest => if c = '-' then some rest else none

/-- Go `isLeap`. -/
def isLeap (year : Int) : Bool :=
  year % 4 = 0 && (year % 100 != 0 || year % 400 = 0)

/-- Go `daysIn(m, year)`. -/
def daysIn (m : Nat) (year : Int) : Nat :=
  if m = 2 then (if isLeap year then 29 else 28)
  else if m = 4 ∨ m = 6 ∨ m = 9 ∨ m = 11 then 30
  else 31

namespace time

/-- Go `time.Parse("2006-01-02", value)`; `none` stands for a non-nil
`*time.ParseError`.  The steps follow the layout elements `2006`, `-`, `01`,
`-`, `02`, the check for trailing text and the final day-of-month validation;
a successful parse is midnight UTC of that date. -/
def Parse (value : String) : Option Time :=
  let v0 := value.data
  if v0.length < 4 || !isDigit v0 0 then none
  else
    match atoi (v0.take 4) with
    | none => none
    | some year =>
      match skipDash (v0.drop 4) with
      | none => none
      | some v1 =>
        match getnum v1 true with
        | none => none
        | some (month, v2) =>
          if month ≤ 0 || 12 < month then none
          else
            match skipDash v2 with
            | none => none
            | some v3 =>
              match getnum v3 true with
              | none => none
              | some (day, v4) =>
                if v4.length ≠ 0 then none
                else if day < 1 || day > daysIn month year then none
                else some { year := year, month := month, day := day, nanos := 0 }

end time

/-- Two decimal digits of `u < 100` (the digit-pair table of Go `appendInt`). -/
def twoDigits (u : Nat) : List Char :=
  [Char.ofNat (48 + u / 10), Char.ofNat (48 + u % 10)]

/-- Go `appendInt(b, x, width)`: sign, then the decimal form padded with
leading zeros to `width`. -/
def appendInt (x : Int) (width : Nat) : List Char :=
  let u := x.natAbs
  let sign : List Char := if x < 0 then ['-'] else []
  if width = 2 ∧ u < 100 then sign ++ twoDigits u
  else if width = 4 ∧ u < 10000 then sign ++ twoDigits (u / 100) ++ twoDigits (u % 100)
  else
    let ds := Nat.toDigits 10 u
    sign ++ List.replicate (width - ds.length) '0' ++ ds

/-- Go `t.Format("2006-01-02")`. -/
def Time.Format (t : Time) : String :=
  ⟨appendInt t.year 4 ++ ['-'] ++ appendInt (t.month : Int) 2 ++ ['-']
    ++ appendInt (t.day : Int) 2⟩

/-! ## Package `mcp`: requests and results -/

/-- Dynamic value of Go type `interface{}` held by an argument map, tagged by
its dynamic type (`nil`, `bool`, a number, `string`). -/
inductive Value where
  | null
  | bool (b : Bool)
  | number (n : Int)
  | str (s : String)
  deriving DecidableEq

/-- Go `x.(string)` in its two-result form: the string and `true` when the
dynamic type is `string`, otherwise the zero value and `false`.  The argument
is the result of a map index, `none` for a key that is not in the map. -/
def asString : Option Value → String × Bool
  | some (Value.str s) => (s, true)
  | _ => ("", false)

/-- The part of `mcp.CallToolRequest` read by the server: `Params.Name` and
`Params.Arguments`, a `map[string]interface{}` kept as an association list
(a map index is `List.lookup`). -/
structure CallToolRequest where
  Name : String
  Arguments : List (String × Value)

/-- Type `mcp.TextContent`. -/
structure TextContent where
  Type_ : String
  Text : String
  deriving DecidableEq

/-- Content blocks of a tool result: text, or one of the other kinds. -/
inductive Content where
  | text (c : TextContent)
  | other (kind : String)
  deriving DecidableEq

/-- Go `mcp.AsTextContent`. -/
def AsTextContent : Content → Option TextContent
  | Content.text c => some c
  | Content.other _ => none

/-- Type `mcp.CallToolResult`. -/
structure CallToolResult where
  Content : List Content
  IsError : Bool
  deriving DecidableEq

/-- Go `mcp.NewToolResultText`: one text block, `IsError` left at its zero value. -/
def NewToolResultText (text : String) : CallToolResult :=
  { Content := [Content.text { Type_ := "text", Text := text }], IsError := false }

/-! ## Package `genai`: the response of `GenerateContent`

The package declares `Candidates []*Candidate`, `Content *Content` and
`Parts []*Part` (the code itself builds a `[]*genai.Part` and a
`[]*genai.Content`).  A pointer is an optional value, `none` being nil, and a
field read through a nil pointer panics. -/

/-- Type `genai.Part`, of which the code reads and writes `Text`. -/
structure Part where
  Text : String
  deriving DecidableEq

/-- Type `genai.Content`: `Parts []*Part`. -/
structure GContent where
  Parts : List (Option Part)
  deriving DecidableEq

/-- Type `genai.Candidate`: `Content *Content`. -/
structure Candidate where
  Content : Option GContent
  deriving DecidableEq

/-- Type `genai.GenerateContentResponse`: `Candidates []*Candidate`. -/
structure GenerateContentResponse where
  Candidates : List (Option Candidate)
  deriving DecidableEq

/-! ## The world outside the two functions -/

/-- What the server reads from outside: the clock, the process environment, the
text of the errors of package `time`, and the GenAI service.  Library errors
are carried as their `Error()` text. -/
structure Env where
  /-- Result of `time.Now().UTC()`. -/
  now : Time
  /-- Process environment; `none` for an unset variable. -/
  environ : String → Option String
  /-- Text of the `*time.ParseError` returned for a rejected value. -/
  parseErrorText : String → String
  /-- Go `genai.NewClient` for an API key: `some e` is a non-nil error. -/
  newClient : String → Option String
  /-- Go `client.Models.GenerateContent` for an API key, a model name and the contents. -/
  generateContent : String → String → List (Option GContent) →
    Except String GenerateContentResponse

/-- Go `os.Getenv`: the value, or the empty string when the variable is unset. -/
def Env.Getenv (env : Env) (key : String) : String :=
  (env.environ key).getD ""

/-- Calls recorded while the handler runs: entering `generateForecast` (with its
arguments), `genai.NewClient`, and `client.Models.GenerateContent`. -/
inductive Event where
  | generateForecast (city country : String) (from_ to_ : Time)
  | newClient (apiKey : String)
  | generateContent (model : String) (contents : List (Option GContent))
  deriving DecidableEq

/-- How a Go function call ends: it returns its results, or it panics. -/
inductive Outcome (α : Type) where
  | returned (a : α)
  | panicked
  deriving DecidableEq

/-- Result of running a function: how it ended and the calls it made, in order. -/
structure Run (α : Type) where
  outcome : Outcome α
  trace : List Event

/-! ## `server/main.go` -/

/-- The `fmt.Sprintf` of `generateForecast`: four `%s` verbs filled with the
city, the country and the two formatted dates. -/
def forecastPrompt (city country : String) (from_ to_ : Time) : String :=
  "Provide a concise weather forecast for " ++ city ++ ", " ++ country ++ " from "
    ++ from_.Format ++ " to " ++ to_.Format
    ++ " in Celsius. Include date, temperature, and a brief description."

/-- The loop `for _, part := range ... { sb.WriteString(part.Text) }`; reading
`Text` through a nil `*genai.Part` panics. -/
def writeParts : List (Option Part) → String → Outcome String
  | [], sb => Outcome.returned sb
  | none :: _, _ => Outcome.panicked
  | some part :: rest, sb => writeParts rest (sb ++ part.Text)

/-- Go `generateForecast`.  The results are the pair `(string, error)`, the error
being `none` for `nil`. -/
def generateForecast (env : Env) (city country : String) (from_ to_ : Time) :
    Run (String × Option String) :=
  let enter := Event.generateForecast city country from_ to_
  let apiKey := env.Getenv "GOOGLE_API_KEY"
  if apiKey = "" then
    ⟨Outcome.returned ("", some "GOOGLE_API_KEY environment variable is not set"), [enter]⟩
  else
    match env.newClient apiKey with
    | some err =>
      ⟨Outcome.returned ("", some ("error creating GenAI client: " ++ err)),
        [enter, Event.newClient apiKey]⟩
    | none =>
      let prompt := forecastPrompt city country from_ to_
      let parts : List (Option Part) := [some { Text := prompt }]
      let contents : List (Option GContent) := [some { Parts := parts }]
      let tr := [enter, Event.newClient apiKey,
        Event.generateContent "gemini-2.0-flash" contents]
      match env.generateContent apiKey "gemini-2.0-flash" contents with
      | Except.error err =>
        ⟨Outcome.returned ("", some ("error generating forecast: " ++ err)), tr⟩
      | Except.ok resp =>
        if resp.Candidates.length = 0 then
          ⟨Outcome.returned ("", some "no candidates returned from GenAI"), tr⟩
        else
          match resp.Candidates.head? with
          | some (some candidate) =>
            match candidate.Content with
            | some content =>
              match writeParts content.Parts "" with
              | Outcome.returned text => ⟨Outcome.returned (text, none), tr⟩
              | Outcome.panicked => ⟨Outcome.panicked, tr⟩
            | none => ⟨Outcome.panicked, tr⟩
          | _ => ⟨Outcome.panicked, tr⟩

/-- Go `weatherHandler`.  The results are the pair `(*mcp.CallToolResult, error)`,
each `none` for `nil`. -/
def weatherHandler (env : Env) (request : CallToolRequest) :
    Run (Option CallToolResult × Option String) :=
  let city := asString (request.Arguments.lookup "city")
  if !city.2 || city.1 = "" then
    ⟨Outcome.returned (none, some "city is required and must be a string"), []⟩
  else
    let country := asString (request.Arguments.lookup "country")
    if !country.2 || country.1 = "" then
      ⟨Outcome.returned (none, some "country is required and must be a string"), []⟩
    else
      let today := env.now
      let fromArg := asString (request.Arguments.lookup "fromDate")
      let fromR : Except String Time :=
        if fromArg.2 && fromArg.1 ≠ "" then
          match time.Parse fromArg.1 with
          | none => Except.error ("invalid fromDate: " ++ env.parseErrorText fromArg.1)
          | some parsed => Except.ok parsed
        else Except.ok today
      match fromR with
      | Except.error err => ⟨Outcome.returned (none, some err), []⟩
      | Except.ok from_ =>
        let toArg := asString (request.Arguments.lookup "toDate")
        let toR : Except String Time :=
          if toArg.2 && toArg.1 ≠ "" then
            match time.Parse toArg.1 with
            | none => Except.error ("invalid toDate: " ++ env.parseErrorText toArg.1)
            | some parsed => Except.ok parsed
          else Except.ok from_
        match toR with
        | Except.error err => ⟨Outcome.returned (none, some err), []⟩
        | Except.ok to_ =>
          let r := generateForecast env city.1 country.1 from_ to_
          match r.outcome with
          | Outcome.panicked => ⟨Outcome.panicked, r.trace⟩
          | Outcome.returned (_, some err) =>
            ⟨Outcome.returned (none, some err), r.trace⟩
          | Outcome.returned (forecastText, none) =>
            ⟨Outcome.returned (some (NewToolResultText forecastText), none), r.trace⟩

/-! ### The tool descriptor built in `main` -/

/-- Options of one property: `mcp.Required()` and `mcp.Description(..)`. -/
inductive PropertyOption where
  | Required
  | Description (text : String)
  deriving DecidableEq

/-- Schema of one declared parameter. -/
structure PropertySchema where
  Type_ : String
  Description : String
  deriving DecidableEq

/-- Type `mcp.Tool`: name, description, and the input schema, whose `Properties`
map is kept in insertion order and whose `Required` is a slice of names. -/
structure Tool where
  Name : String
  Description : String
  Properties : List (String × PropertySchema)
  Required : List String
  deriving DecidableEq

/-- Options of `mcp.NewTool` used by `main`. -/
inductive ToolOption where
  | WithDescription (text : String)
  | WithString (name : String) (opts : List PropertyOption)

/-- Map assignment `m[key] = value` on an association list. -/
def mapSet (m : List (String × PropertySchema)) (key : String) (value : PropertySchema) :
    List (String × PropertySchema) :=
  if (m.lookup key).isSome then m.map (fun kv => if kv.1 = key then (key, value) else kv)
  else m ++ [(key, value)]

/-- Effect of one tool option on the tool under construction. -/
def applyToolOption (t : Tool) : ToolOption → Tool
  | ToolOption.WithDescription text => { t with Description := text }
  | ToolOption.WithString name opts =>
    let description := opts.foldl
      (fun d o => match o with
        | PropertyOption.Description text => text
        | PropertyOption.Required => d) ""
    let required := opts.any (fun o => o = PropertyOption.Required)
    { t with
      Properties := mapSet t.Properties name { Type_ := "string", Description := description }
      Required := if required then t.Required ++ [name] else t.Required }

/-- Go `mcp.NewTool`: the options are applied in order to an empty tool. -/
def NewTool (name : String) (opts : List ToolOption) : Tool :=
  opts.foldl applyToolOption
    { Name := name, Description := "", Properties := [], Required := [] }

/-- The value `tool` that `main` registers with `weatherHandler`. -/
def tool : Tool :=
  NewTool "weather" [
    ToolOption.WithDescription
      "Get the weather forecast for a given city and country over a date range",
    ToolOption.WithString "city"
      [PropertyOption.Required, PropertyOption.Description "Name of the city"],
    ToolOption.WithString "country"
      [PropertyOption.Required, PropertyOption.Description "Name of the country"],
    ToolOption.WithString "fromDate"
      [PropertyOption.Description "Start date in YYYY-MM-DD format (defaults to today)"],
    ToolOption.WithString "toDate"
      [PropertyOption.Description
        "End date in YYYY-MM-DD format (defaults to same as fromDate)"]]

/-- The request built by `client/main.go`. -/
def clientRequest : CallToolRequest :=
  { Name := "weather",
    Arguments := [("city", Value.str "Warsaw"), ("country", Value.str "Poland"),
      ("fromDate", Value.str "2025-05-02"), ("toDate", Value.str "2025-05-15")] }

/-! ## Specification-level definitions and sample inputs -/

/-- A decimal digit character. -/
def IsDig (c : Char) : Prop := 48 ≤ c.toNat ∧ c.toNat ≤ 57

instance (c : Char) : Decidable (IsDig c) := by unfold IsDig; infer_instance

/-- Value of a digit character. -/
def dval (c : Char) : Nat := c.toNat - 48

/-- Leap years of the Gregorian calendar. -/
def leapYear (y : Nat) : Bool :=
  (y % 4 = 0 && y % 100 ≠ 0) || y % 400 = 0

/-- Number of days of month `m` (1 to 12) of year `y`; 0 for any other `m`. -/
def monthLength (y m : Nat) : Nat :=
  match m with
  | 1 => 31
  | 2 => if leapYear y then 29 else 28
  | 3 => 31
  | 4 => 30
  | 5 => 31
  | 6 => 30
  | 7 => 31
  | 8 => 31
  | 9 => 30
  | 10 => 31
  | 11 => 30
  | 12 => 31
  | _ => 0

/-- Follows the spec's words (`format YYYY-MM-DD`): ten characters, four digits
of year, two of month and two of day separated by `-`, that name a month from
01 to 12 and a day of that month. -/
def validYMD (v : String) : Bool :=
  match v.data with
  | [y1, y2, y3, y4, s1, m1, m2, s2, d1, d2] =>
    [y1, y2, y3, y4, m1, m2, d1, d2].all (fun c => decide (IsDig c))
      && decide (s1 = '-') && decide (s2 = '-')
      && decide (1 ≤ dval m1 * 10 + dval m2) && decide (dval m1 * 10 + dval m2 ≤ 12)
      && decide (1 ≤ dval d1 * 10 + dval d2)
      && decide (dval d1 * 10 + dval d2 ≤
          monthLength (dval y1 * 1000 + dval y2 * 100 + dval y3 * 10 + dval y4)
            (dval m1 * 10 + dval m2))
  | _ => false

/-- An error message names parameter `p`: it is the message of the required-check
of `p`, or it begins with the invalid-date text for `p`. -/
def namesParam (msg p : String) : Bool :=
  decide (msg = p ++ " is required and must be a string")
    || ("invalid " ++ p ++ ": ").data.isPrefixOf msg.data

/-- The calls of `generateForecast` recorded in a trace, with their arguments. -/
def forecastCalls (tr : List Event) : List (String × String × Time × Time) :=
  tr.filterMap (fun e =>
    match e with
    | Event.generateForecast c k f t => some (c, k, f, t)
    | _ => none)

/-- A required argument is valid: the mapping holds a string for `key`, and it
is not empty. -/
def HasString (request : CallToolRequest) (key s : String) : Prop :=
  request.Arguments.lookup key = some (Value.str s) ∧ s ≠ ""

/-- An optional date argument is absent from the mapping (`d = none`), or is a
valid `YYYY-MM-DD` string, `d` being its parsed date. -/
def DateArg (request : CallToolRequest) (key : String) (d : Option Time) : Prop :=
  (request.Arguments.lookup key = none ∧ d = none) ∨
    ∃ v, request.Arguments.lookup key = some (Value.str v) ∧ validYMD v = true ∧
      d = time.Parse v

/-- Follows the spec's words: `fromDate` defaults to the current date if absent. -/
def specFrom (now : Time) (fromDate : Option Time) : Time :=
  match fromDate with
  | some d => d
  | none => now

/-- Follows the spec's words: `toDate` defaults to `fromDate` if absent. -/
def specTo (from_ : Time) (toDate : Option Time) : Time :=
  match toDate with
  | some d => d
  | none => from_

/-- Order in which the handler checks its arguments. -/
def checkOrder : List String := ["city", "country", "fromDate", "toDate"]

/-- The check of a required parameter taken alone: `some e` when it fails with
error `e` (the argument is missing, not a string, or empty). -/
def requiredCheck (request : CallToolRequest) (p : String) : Option String :=
  match request.Arguments.lookup p with
  | some (Value.str s) =>
    if s = "" then some (p ++ " is required and must be a string") else none
  | _ => some (p ++ " is required and must be a string")

/-- The check of an optional date parameter taken alone: `some e` when it fails
with error `e` (the argument is a non-empty string that is not a valid date). -/
def dateCheck (env : Env) (request : CallToolRequest) (p : String) : Option String :=
  match request.Arguments.lookup p with
  | some (Value.str v) =>
    if v ≠ "" ∧ validYMD v = false then some ("invalid " ++ p ++ ": " ++ env.parseErrorText v)
    else none
  | _ => none

/-- The first failing check in the order city, country, fromDate, toDate, with
its error. -/
def firstFailure (env : Env) (request : CallToolRequest) : Option (String × String) :=
  [("city", requiredCheck request "city"), ("country", requiredCheck request "country"),
    ("fromDate", dateCheck env request "fromDate"), ("toDate", dateCheck env request "toDate")]
  |>.findSome? (fun pe => pe.2.map (fun e => (pe.1, e)))

/-- The error names `p` and no other parameter of the tool. -/
def namesOnly (msg p : String) : Prop :=
  ∀ q, q ∈ checkOrder → (namesParam msg q = true ↔ q = p)

/-- A clock reading used by the sample environments. -/
def sampleNow : Time := { year := 2025, month := 5, day := 1, nanos := 43200000000000 }

/-- Process environment in which only `GOOGLE_API_KEY` is set. -/
def environWithKey (key : String) : Option String :=
  if key = "GOOGLE_API_KEY" then some "k-123" else none

/-- Sample environment without the API key. -/
def envNoKey : Env :=
  { now := sampleNow
    environ := fun _ => none
    parseErrorText := fun v => "cannot parse " ++ v
    newClient := fun _ => none
    generateContent := fun _ _ _ => Except.ok { Candidates := [] } }

/-- Sample environment in which the service answers with two candidates, the
first made of two parts. -/
def envServing : Env :=
  { now := sampleNow
    environ := environWithKey
    parseErrorText := fun v => "cannot parse " ++ v
    newClient := fun _ => none
    generateContent := fun _ _ _ => Except.ok
      { Candidates := [
          some { Content := some { Parts := [some { Text := "2025-05-02: 18C, " },
            some { Text := "sunny" }] } },
          some { Content := some { Parts := [some { Text := "rain" }] } }] } }

/-- Sample environment in which the service answers with one candidate that
carries no content (its `Content` pointer is nil). -/
def envBlocked : Env :=
  { now := sampleNow
    environ := environWithKey
    parseErrorText := fun v => "cannot parse " ++ v
    newClient := fun _ => none
    generateContent := fun _ _ _ => Except.ok { Candidates := [some { Content := none }] } }

/-- Request `{city: "Warsaw"}`. -/
def requestCityOnly : CallToolRequest :=
  { Name := "weather", Arguments := [("city", Value.str "Warsaw")] }

/-- Request `{city: 5}`: a city of the wrong dynamic type and no country. -/
def requestNumericCity : CallToolRequest :=
  { Name := "weather", Arguments := [("city", Value.number 5)] }

/-- Request `{city: "Warsaw", country: "Poland"}`. -/
def requestNoDates : CallToolRequest :=
  { Name := "weather",
    Arguments := [("city", Value.str "Warsaw"), ("country", Value.str "Poland")] }

/-- Request with `fromDate: "15/05/2025"`. -/
def requestSlashDate : CallToolRequest :=
  { Name := "weather",
    Arguments := [("city", Value.str "Warsaw"), ("country", Value.str "Poland"),
      ("fromDate", Value.str "15/05/2025")] }

/-- Request with two malformed dates. -/
def requestTwoBadDates : CallToolRequest :=
  { Name := "weather",
    Arguments := [("city", Value.str "Warsaw"), ("country", Value.str "Poland"),
      ("fromDate", Value.str "15/05/2025"), ("toDate", Value.str "tomorrow")] }

/-- The handler fails: it returns a non-nil error. -/
def Fails (r : Run (Option CallToolResult × Option String)) : Prop :=
  ∃ res e, r.outcome = Outcome.returned (res, some e)

/-- Follows the claim's words: the texts of the parts, concatenated in order
with no separator. -/
def concatTexts : List Part → String
  | [] => ""
  | p :: ps => p.Text ++ concatTexts ps

/-! ## Lemmas on package `time` and on the handler -/

theorem skipDash_eq_some {s r : List Char} : skipDash s = some r ↔ s = '-' :: r := by
  cases s with
  | nil => simp [skipDash]
  | cons c t =>
    simp only [skipDash]
    constructor
    · intro h
      split at h
      · simp_all
      · simp at h
    · intro h
      simp_all

theorem getnum_fixed_eq_some {s r : List Char} {n : Nat} :
    getnum s true = some (n, r) ↔
      ∃ a b, s = a :: b :: r ∧ IsDig a ∧ IsDig b ∧ n = dval a * 10 + dval b := by
  rcases s with _ | ⟨a, _ | ⟨b, t⟩⟩
  · simp [getnum, isDigit]
  · simp [getnum, isDigit]
  · simp only [getnum, isDigit, List.get?, IsDig, dval]
    by_cases ha : 48 ≤ a.toNat ∧ a.toNat ≤ 57 <;> by_cases hb : 48 ≤ b.toNat ∧ b.toNat ≤ 57
    · simp [ha, hb]
      constructor
      · rintro ⟨rfl, rfl⟩
        exact ⟨a, b, ⟨rfl, rfl, rfl⟩, ha, hb, rfl⟩
      · rintro ⟨a1, b1, ⟨rfl, rfl, rfl⟩, _, _, rfl⟩
        exact ⟨rfl, rfl⟩
    all_goals simp [ha, hb]
    all_goals intros; omega

theorem leadingInt_digit {c : Char} (cs : List Char) {x : Nat} (hc : IsDig c) (hx : x < 10000) :
    leadingInt (c :: cs) x = leadingInt cs (x * 10 + dval c) := by
  unfold IsDig at hc
  simp only [leadingInt, dval]
  split_ifs with g1 g2 g3
  · simp at g1; omega
  · norm_num at g2; omega
  · norm_num at g3; omega
  · rfl

theorem leadingInt_nondigit {c : Char} (cs : List Char) (x : Nat) (hc : ¬ IsDig c) :
    leadingInt (c :: cs) x = some (x, c :: cs) := by
  unfold IsDig at hc
  have h1 : c.toNat < 48 ∨ c.toNat > 57 := by omega
  simp only [leadingInt]
  simp [h1]

theorem atoi_four {a b c d : Char} {y : Int} (ha : IsDig a) :
    atoi [a, b, c, d] = some y ↔
      IsDig b ∧ IsDig c ∧ IsDig d ∧
        y = ((dval a * 1000 + dval b * 100 + dval c * 10 + dval d : Nat) : Int) := by
  have hm : a ≠ '-' := by rintro rfl; revert ha; decide
  have hp : a ≠ '+' := by rintro rfl; revert ha; decide
  have hda : dval a < 10 := by unfold IsDig at ha; unfold dval; omega
  simp only [atoi, List.head?, Option.some.injEq, hm, hp, or_self, if_false, decide_False]
  rw [leadingInt_digit _ ha (by omega)]
  by_cases hb : IsDig b
  · have hdb : dval b < 10 := by unfold IsDig at hb; unfold dval; omega
    rw [leadingInt_digit _ hb (by omega)]
    by_cases hc : IsDig c
    · have hdc : dval c < 10 := by unfold IsDig at hc; unfold dval; omega
      rw [leadingInt_digit _ hc (by omega)]
      by_cases hd : IsDig d
      · rw [leadingInt_digit _ hd (by omega)]
        simp only [leadingInt, hb, hc, hd, true_and]
        simp
        constructor
        · intro h; rw [← h]; congr 1; ring
        · intro h; rw [h]; congr 1; ring
      · rw [leadingInt_nondigit _ _ hd]
        simp [hd]
    · rw [leadingInt_nondigit _ _ hc]
      simp [hc]
  · rw [leadingInt_nondigit _ _ hb]
    simp [hb]

theorem Parse_eq_some_iff {v : String} {t : Time} :
    time.Parse v = some t ↔
      ∃ a b c d e f g h : Char,
        v.data = [a, b, c, d, '-', e, f, '-', g, h] ∧
        IsDig a ∧ IsDig b ∧ IsDig c ∧ IsDig d ∧ IsDig e ∧ IsDig f ∧ IsDig g ∧ IsDig h ∧
        1 ≤ dval e * 10 + dval f ∧ dval e * 10 + dval f ≤ 12 ∧
        1 ≤ dval g * 10 + dval h ∧
        dval g * 10 + dval h ≤
          daysIn (dval e * 10 + dval f)
            ((dval a * 1000 + dval b * 100 + dval c * 10 + dval d : Nat) : Int) ∧
        t = { year := ((dval a * 1000 + dval b * 100 + dval c * 10 + dval d : Nat) : Int),
              month := dval e * 10 + dval f, day := dval g * 10 + dval h, nanos := 0 } := by
  obtain ⟨l⟩ := v
  constructor
  · intro h
    simp only [time.Parse] at h
    split_ifs at h with g0
    rcases l with _ | ⟨a, _ | ⟨b, _ | ⟨c, _ | ⟨d, rest⟩⟩⟩⟩
    · simp at g0
    · simp at g0
    · simp at g0
    · simp at g0
    · have ha : IsDig a := by
        simpa [isDigit, IsDig] using g0
      simp only [List.take, List.drop] at h
      cases hy : atoi [a, b, c, d] with
      | none => simp [hy] at h
      | some y =>
        obtain ⟨hb, hc, hd, rfl⟩ := (atoi_four ha).mp hy
        simp only [hy] at h
        cases h1 : skipDash rest with
        | none => simp [h1] at h
        | some v1 =>
          simp only [h1] at h
          cases h2 : getnum v1 true with
          | none => simp [h2] at h
          | some p2 =>
            obtain ⟨month, v2⟩ := p2
            simp only [h2] at h
            split_ifs at h with g1
            cases h3 : skipDash v2 with
            | none => simp [h3] at h
            | some v3 =>
              simp only [h3] at h
              cases h4 : getnum v3 true with
              | none => simp [h4] at h
              | some p4 =>
                obtain ⟨day, v4⟩ := p4
                simp only [h4] at h
                split_ifs at h with g2 g3
                obtain ⟨e, f, rfl, he, hf, rfl⟩ := getnum_fixed_eq_some.mp h2
                obtain ⟨g, i, rfl, hg, hi, rfl⟩ := getnum_fixed_eq_some.mp h4
                have e1 := skipDash_eq_some.mp h1
                have e3 := skipDash_eq_some.mp h3
                subst e1 e3
                have e4 : v4 = [] := by
                  cases v4 with
                  | nil => rfl
                  | cons _ _ => simp at g2
                subst e4
                simp at g1 g3
                refine ⟨a, b, c, d, e, f, g, i, rfl, ha, hb, hc, hd, he, hf, hg, hi, ?_, ?_, ?_, ?_, ?_⟩
                · omega
                · omega
                · omega
                · push_cast at g3 ⊢; omega
                · simpa using h.symm
  · rintro ⟨a, b, c, d, e, f, g, i, hl, ha, hb, hc, hd, he, hf, hg, hi, m1, m2, d1, d2, rfl⟩
    simp only at hl
    subst hl
    have hy := (atoi_four ha).mpr ⟨hb, hc, hd, rfl⟩
    have h2 : getnum (e :: f :: '-' :: [g, i]) true = some (dval e * 10 + dval f, '-' :: [g, i]) :=
      getnum_fixed_eq_some.mpr ⟨e, f, rfl, he, hf, rfl⟩
    have h4 : getnum [g, i] true = some (dval g * 10 + dval i, []) :=
      getnum_fixed_eq_some.mpr ⟨g, i, rfl, hg, hi, rfl⟩
    have g0 : isDigit (a :: b :: c :: d :: '-' :: e :: f :: '-' :: [g, i]) 0 = true := by
      simpa [isDigit, IsDig] using ha
    simp only [time.Parse, List.take, List.drop, hy, h2, h4, skipDash, g0, List.length_cons,
      List.length_nil, if_true]
    simp
    push_cast at d2 ⊢
    omega

theorem ofNat_dval {a : Char} (ha : IsDig a) : Char.ofNat (48 + dval a) = a := by
  unfold IsDig at ha
  have h : 48 + dval a = a.toNat := by unfold dval; omega
  rw [h, Char.ofNat_toNat]

theorem dval_lt {a : Char} (ha : IsDig a) : dval a < 10 := by
  unfold IsDig at ha; unfold dval; omega

theorem twoDigits_dval {a b : Char} (ha : IsDig a) (hb : IsDig b) :
    twoDigits (dval a * 10 + dval b) = [a, b] := by
  have h1 := dval_lt ha
  have h2 := dval_lt hb
  have e1 : (dval a * 10 + dval b) / 10 = dval a := by omega
  have e2 : (dval a * 10 + dval b) % 10 = dval b := by omega
  simp only [twoDigits, e1, e2, ofNat_dval ha, ofNat_dval hb]

theorem appendInt_two {a b : Char} (ha : IsDig a) (hb : IsDig b) :
    appendInt ((dval a * 10 + dval b : Nat) : Int) 2 = [a, b] := by
  have h1 := dval_lt ha
  have h2 := dval_lt hb
  have hlt : (dval a * 10 + dval b) < 100 := by omega
  have hneg : ¬ (((dval a * 10 + dval b : Nat) : Int) < 0) := by omega
  simp only [appendInt, Int.natAbs_ofNat, hlt, hneg, if_false, and_self, if_true, List.nil_append]
  exact twoDigits_dval ha hb

theorem appendInt_four {a b c d : Char} (ha : IsDig a) (hb : IsDig b) (hc : IsDig c)
    (hd : IsDig d) :
    appendInt ((dval a * 1000 + dval b * 100 + dval c * 10 + dval d : Nat) : Int) 4
      = [a, b, c, d] := by
  have h1 := dval_lt ha
  have h2 := dval_lt hb
  have h3 := dval_lt hc
  have h4 := dval_lt hd
  have hlt : (dval a * 1000 + dval b * 100 + dval c * 10 + dval d) < 10000 := by omega
  have hneg : ¬ (((dval a * 1000 + dval b * 100 + dval c * 10 + dval d : Nat) : Int) < 0) := by
    omega
  have e1 : (dval a * 1000 + dval b * 100 + dval c * 10 + dval d) / 100
      = dval a * 10 + dval b := by omega
  have e2 : (dval a * 1000 + dval b * 100 + dval c * 10 + dval d) % 100
      = dval c * 10 + dval d := by omega
  have h42 : ¬ ((4 : Nat) = 2) := by decide
  simp only [appendInt, Int.natAbs_ofNat, hlt, hneg, if_false, and_true, if_true,
    List.nil_append, h42, false_and, e1, e2, twoDigits_dval ha hb, twoDigits_dval hc hd]
  rfl

/-- Formatting a parsed date gives the parsed string back. -/
theorem Format_of_Parse {v : String} {t : Time} (h : time.Parse v = some t) : t.Format = v := by
  obtain ⟨a, b, c, d, e, f, g, i, hl, ha, hb, hc, hd, he, hf, hg, hi, _, _, _, _, rfl⟩ :=
    Parse_eq_some_iff.mp h
  obtain ⟨l⟩ := v
  simp only at hl
  subst hl
  simp only [Time.Format, appendInt_four ha hb hc hd, appendInt_two he hf, appendInt_two hg hi]
  rfl

theorem isLeap_natCast (y : Nat) : isLeap (y : Int) = leapYear y := by
  rw [Bool.eq_iff_iff]
  simp only [isLeap, leapYear, Bool.and_eq_true, Bool.or_eq_true, decide_eq_true_eq, bne_iff_ne,
    ne_eq]
  omega

theorem daysIn_eq_monthLength {m : Nat} (y : Nat) (h1 : 1 ≤ m) (h2 : m ≤ 12) :
    daysIn m (y : Int) = monthLength y m := by
  interval_cases m <;> simp [daysIn, monthLength, isLeap_natCast]

/-- The parser accepts exactly the valid `YYYY-MM-DD` dates. -/
theorem Parse_isSome_iff_validYMD (v : String) :
    (∃ t, time.Parse v = some t) ↔ validYMD v = true := by
  constructor
  · rintro ⟨t, h⟩
    obtain ⟨a, b, c, d, e, f, g, i, hl, ha, hb, hc, hd, he, hf, hg, hi, m1, m2, d1, d2, _⟩ :=
      Parse_eq_some_iff.mp h
    rw [daysIn_eq_monthLength _ m1 m2] at d2
    simp [validYMD, hl, ha, hb, hc, hd, he, hf, hg, hi, m1, m2, d1, d2]
  · intro h
    unfold validYMD at h
    split at h
    · rename_i y1 y2 y3 y4 s1 m1 m2 s2 d1 d2 hl
      simp only [List.all_cons, List.all_nil, Bool.and_true, Bool.and_eq_true,
        decide_eq_true_eq] at h
      obtain ⟨⟨⟨⟨⟨⟨⟨ha, hb, hc, hd, he, hf, hg, hi⟩, rfl⟩, rfl⟩, k1⟩, k2⟩, k3⟩, k4⟩ := h
      rw [← daysIn_eq_monthLength _ k1 k2] at k4
      exact ⟨_, Parse_eq_some_iff.mpr
        ⟨y1, y2, y3, y4, m1, m2, d1, d2, hl, ha, hb, hc, hd, he, hf, hg, hi, k1, k2, k3, k4, rfl⟩⟩
    · simp at h

theorem Parse_eq_none_of_not_valid {v : String} (h : validYMD v = false) :
    time.Parse v = none := by
  cases hp : time.Parse v with
  | none => rfl
  | some t =>
    have := (Parse_isSome_iff_validYMD v).mp ⟨t, hp⟩
    simp [h] at this

theorem namesParam_invalid_from (text : String) :
    namesParam ("invalid fromDate: " ++ text) "fromDate" = true ∧
    namesParam ("invalid fromDate: " ++ text) "toDate" = false ∧
    namesParam ("invalid fromDate: " ++ text) "city" = false ∧
    namesParam ("invalid fromDate: " ++ text) "country" = false := by
  obtain ⟨l⟩ := text
  refine ⟨?_, ?_, ?_, ?_⟩ <;> simp [namesParam, String.ext_iff, List.isPrefixOf]

theorem invalid_ne_required (p text : String) :
    "invalid " ++ p ++ ": " ++ text ≠ "city is required and must be a string" ∧
    "invalid " ++ p ++ ": " ++ text ≠ "country is required and must be a string" := by
  obtain ⟨l⟩ := text
  obtain ⟨m⟩ := p
  constructor <;> simp [String.ext_iff]

theorem validYMD_ne_empty {v : String} (h : validYMD v = true) : v ≠ "" := by
  rintro rfl
  revert h
  decide

theorem dateArg_cases {request : CallToolRequest} {key : String} {d : Option Time}
    (h : DateArg request key d) (dflt : Time) (label : String) (env : Env) :
    (if (asString (request.Arguments.lookup key)).2 &&
          decide ((asString (request.Arguments.lookup key)).1 ≠ "") then
        match time.Parse (asString (request.Arguments.lookup key)).1 with
        | none => (Except.error (label ++
            env.parseErrorText (asString (request.Arguments.lookup key)).1) : Except String Time)
        | some parsed => Except.ok parsed
      else Except.ok dflt) = Except.ok (specFrom dflt d) := by
  rcases h with ⟨h1, rfl⟩ | ⟨v, h1, h2, rfl⟩
  · simp [h1, asString, specFrom]
  · obtain ⟨t, ht⟩ := (Parse_isSome_iff_validYMD v).mpr h2
    have hne := validYMD_ne_empty h2
    simp [h1, asString, specFrom, ht, hne]

theorem specTo_eq_specFrom (a : Time) (d : Option Time) : specTo a d = specFrom a d := by
  cases d <;> rfl

/-- On a request that passes validation the handler runs `generateForecast` on
the validated arguments and turns its results into its own. -/
theorem weatherHandler_of_valid (env : Env) (request : CallToolRequest) {c k : String}
    {fd td : Option Time} (hc : HasString request "city" c)
    (hk : HasString request "country" k) (hf : DateArg request "fromDate" fd)
    (ht : DateArg request "toDate" td) :
    weatherHandler env request =
      ⟨match (generateForecast env c k (specFrom env.now fd)
            (specTo (specFrom env.now fd) td)).outcome with
        | Outcome.panicked => Outcome.panicked
        | Outcome.returned (_, some err) => Outcome.returned (none, some err)
        | Outcome.returned (text, none) =>
          Outcome.returned (some (NewToolResultText text), none),
       (generateForecast env c k (specFrom env.now fd)
            (specTo (specFrom env.now fd) td)).trace⟩ := by
  obtain ⟨hc1, hc2⟩ := hc
  obtain ⟨hk1, hk2⟩ := hk
  have e1 := dateArg_cases hf env.now "invalid fromDate: " env
  have e2 := dateArg_cases ht (specFrom env.now fd) "invalid toDate: " env
  rw [← specTo_eq_specFrom (specFrom env.now fd) td] at e2
  have a1 : asString (request.Arguments.lookup "city") = (c, true) := by rw [hc1]; rfl
  have a2 : asString (request.Arguments.lookup "country") = (k, true) := by rw [hk1]; rfl
  unfold weatherHandler
  simp only [a1, a2, hc2, hk2, Bool.not_true, Bool.false_or, decide_False,
    Bool.false_eq_true, if_false]
  rw [e1]
  simp only []
  rw [e2]
  simp only []
  split <;> simp_all

theorem requiredCheck_eq_none {request : CallToolRequest} {p : String}
    (h : requiredCheck request p = none) : ∃ s, HasString request p s := by
  unfold requiredCheck at h
  split at h
  · rename_i s hs
    split_ifs at h with h0
    exact ⟨s, hs, h0⟩
  · simp at h

theorem requiredCheck_eq_some {request : CallToolRequest} {p e : String}
    (h : requiredCheck request p = some e) :
    e = p ++ " is required and must be a string" ∧
      ((asString (request.Arguments.lookup p)).2 = false ∨
        (asString (request.Arguments.lookup p)).1 = "") := by
  unfold requiredCheck at h
  split at h
  · rename_i s hs
    split_ifs at h with h0
    simp only [Option.some.injEq] at h
    exact ⟨h.symm, Or.inr (by rw [hs, h0]; rfl)⟩
  · rename_i hx
    simp only [Option.some.injEq] at h
    refine ⟨h.symm, Or.inl ?_⟩
    generalize request.Arguments.lookup p = x at hx
    rcases x with _ | ⟨_ | _ | _ | s⟩
    · rfl
    · rfl
    · rfl
    · rfl
    · exact absurd rfl (hx s)

theorem requiredCheck_of_missing {request : CallToolRequest} {p : String}
    (h : request.Arguments.lookup p = none) :
    requiredCheck request p = some (p ++ " is required and must be a string") := by
  simp [requiredCheck, h]

theorem handler_city_fails (env : Env) {request : CallToolRequest} {e : String}
    (h : requiredCheck request "city" = some e) :
    weatherHandler env request = ⟨Outcome.returned (none, some e), []⟩ := by
  obtain ⟨rfl, h1⟩ := requiredCheck_eq_some h
  unfold weatherHandler
  rcases h1 with h1 | h1 <;> simp [h1]

theorem handler_country_fails (env : Env) {request : CallToolRequest} {c e : String}
    (hc : HasString request "city" c) (h : requiredCheck request "country" = some e) :
    weatherHandler env request = ⟨Outcome.returned (none, some e), []⟩ := by
  obtain ⟨rfl, h1⟩ := requiredCheck_eq_some h
  obtain ⟨hc1, hc2⟩ := hc
  have a1 : asString (request.Arguments.lookup "city") = (c, true) := by rw [hc1]; rfl
  unfold weatherHandler
  rcases h1 with h1 | h1 <;> simp [a1, hc2, h1]

theorem dateCheck_eq_some {env : Env} {request : CallToolRequest} {p e : String}
    (h : dateCheck env request p = some e) :
    ∃ v, request.Arguments.lookup p = some (Value.str v) ∧ v ≠ "" ∧ validYMD v = false ∧
      e = "invalid " ++ p ++ ": " ++ env.parseErrorText v := by
  unfold dateCheck at h
  split at h
  · rename_i v hv
    split_ifs at h with h0
    simp only [Option.some.injEq] at h
    exact ⟨v, hv, h0.1, h0.2, h.symm⟩
  · simp at h

theorem dateCheck_of_invalid (env : Env) {request : CallToolRequest} {p v : String}
    (hv : request.Arguments.lookup p = some (Value.str v)) (hne : v ≠ "")
    (hbad : validYMD v = false) :
    dateCheck env request p = some ("invalid " ++ p ++ ": " ++ env.parseErrorText v) := by
  simp [dateCheck, hv, hne, hbad]

theorem handler_from_fails (env : Env) {request : CallToolRequest} {c k e : String}
    (hc : HasString request "city" c) (hk : HasString request "country" k)
    (h : dateCheck env request "fromDate" = some e) :
    weatherHandler env request = ⟨Outcome.returned (none, some e), []⟩ := by
  obtain ⟨v, hv, hne, hbad, rfl⟩ := dateCheck_eq_some h
  obtain ⟨hc1, hc2⟩ := hc
  obtain ⟨hk1, hk2⟩ := hk
  have a1 : asString (request.Arguments.lookup "city") = (c, true) := by rw [hc1]; rfl
  have a2 : asString (request.Arguments.lookup "country") = (k, true) := by rw [hk1]; rfl
  have a3 : asString (request.Arguments.lookup "fromDate") = (v, true) := by rw [hv]; rfl
  have hp := Parse_eq_none_of_not_valid hbad
  unfold weatherHandler
  simp [a1, a2, a3, hc2, hk2, hne, hp]

theorem dateStep_ok {env : Env} {request : CallToolRequest} {p : String}
    (h : dateCheck env request p = none) (dflt : Time) (label : String) :
    ∃ d, (if (asString (request.Arguments.lookup p)).2 &&
          decide ((asString (request.Arguments.lookup p)).1 ≠ "") then
        match time.Parse (asString (request.Arguments.lookup p)).1 with
        | none => (Except.error (label ++
            env.parseErrorText (asString (request.Arguments.lookup p)).1) : Except String Time)
        | some parsed => Except.ok parsed
      else Except.ok dflt) = Except.ok d := by
  unfold dateCheck at h
  split at h
  · rename_i v hv
    have a3 : asString (request.Arguments.lookup p) = (v, true) := by rw [hv]; rfl
    split_ifs at h with h0
    by_cases hne : v = ""
    · exact ⟨dflt, by simp [a3, hne]⟩
    · have hval : validYMD v = true := by
        cases hb : validYMD v with
        | true => rfl
        | false => exact absurd ⟨hne, hb⟩ h0
      obtain ⟨t, ht⟩ := (Parse_isSome_iff_validYMD v).mpr hval
      exact ⟨t, by simp [a3, hne, ht]⟩
  · rename_i hx
    have a3 : (asString (request.Arguments.lookup p)).2 = false := by
      generalize request.Arguments.lookup p = x at hx
      rcases x with _ | ⟨_ | _ | _ | s⟩
      · rfl
      · rfl
      · rfl
      · rfl
      · exact absurd rfl (hx s)
    exact ⟨dflt, by simp [a3]⟩

theorem handler_to_fails (env : Env) {request : CallToolRequest} {c k e : String}
    (hc : HasString request "city" c) (hk : HasString request "country" k)
    (hf : dateCheck env request "fromDate" = none)
    (h : dateCheck env request "toDate" = some e) :
    weatherHandler env request = ⟨Outcome.returned (none, some e), []⟩ := by
  obtain ⟨v, hv, hne, hbad, rfl⟩ := dateCheck_eq_some h
  obtain ⟨hc1, hc2⟩ := hc
  obtain ⟨hk1, hk2⟩ := hk
  obtain ⟨d, e1⟩ := dateStep_ok hf env.now "invalid fromDate: "
  have a1 : asString (request.Arguments.lookup "city") = (c, true) := by rw [hc1]; rfl
  have a2 : asString (request.Arguments.lookup "country") = (k, true) := by rw [hk1]; rfl
  have a3 : asString (request.Arguments.lookup "toDate") = (v, true) := by rw [hv]; rfl
  have hp := Parse_eq_none_of_not_valid hbad
  unfold weatherHandler
  simp only [a1, a2, hc2, hk2, Bool.not_true, Bool.false_or, decide_False,
    Bool.false_eq_true, if_false]
  rw [e1]
  simp [a3, hne, hp]

theorem generateForecast_forecastCalls (env : Env) (c k : String) (f t : Time) :
    forecastCalls (generateForecast env c k f t).trace = [(c, k, f, t)] := by
  unfold generateForecast
  simp only []
  split_ifs
  · rfl
  · split
    · rfl
    · split
      · rfl
      · split_ifs
        · rfl
        · split
          · split
            · split <;> rfl
            · rfl
          · rfl

theorem writeParts_all_some (ps : List Part) (sb : String) :
    writeParts (ps.map some) sb = Outcome.returned (sb ++ concatTexts ps) := by
  induction ps generalizing sb with
  | nil => simp [writeParts, concatTexts]
  | cons p ps ih =>
    simp only [List.map_cons, writeParts, ih, concatTexts, String.append_assoc]

/-- With the credential set and the client created, a response whose first
candidate has content and no nil part gives the concatenation of the texts of
its parts, whatever the later candidates are. -/
theorem generateForecast_first_candidate (env : Env) (c k : String) (f t : Time)
    (ps : List Part) (rest : List (Option Candidate))
    (hkey : env.Getenv "GOOGLE_API_KEY" ≠ "")
    (hcl : env.newClient (env.Getenv "GOOGLE_API_KEY") = none)
    (hresp : env.generateContent (env.Getenv "GOOGLE_API_KEY") "gemini-2.0-flash"
      [some { Parts := [some { Text := forecastPrompt c k f t }] }]
        = Except.ok { Candidates := some { Content := some { Parts := ps.map some } } :: rest }) :
    (generateForecast env c k f t).outcome = Outcome.returned (concatTexts ps, none) := by
  unfold generateForecast
  simp [hkey, hcl, hresp, writeParts_all_some]

theorem namesOnly_city : namesOnly "city is required and must be a string" "city" := by
  unfold namesOnly checkOrder
  decide

theorem namesOnly_country :
    namesOnly "country is required and must be a string" "country" := by
  unfold namesOnly checkOrder
  decide

theorem namesOnly_fromDate (text : String) :
    namesOnly ("invalid fromDate: " ++ text) "fromDate" := by
  obtain ⟨h1, h2, h3, h4⟩ := namesParam_invalid_from text
  intro q hq
  simp only [checkOrder, List.mem_cons, List.mem_singleton, List.mem_nil_iff, or_false] at hq
  rcases hq with rfl | rfl | rfl | rfl
  · simp [h3]
  · simp [h4]
  · simp [h1]
  · simp [h2]

theorem namesParam_invalid_to (text : String) :
    namesParam ("invalid toDate: " ++ text) "toDate" = true ∧
    namesParam ("invalid toDate: " ++ text) "fromDate" = false ∧
    namesParam ("invalid toDate: " ++ text) "city" = false ∧
    namesParam ("invalid toDate: " ++ text) "country" = false := by
  obtain ⟨l⟩ := text
  refine ⟨?_, ?_, ?_, ?_⟩ <;> simp [namesParam, String.ext_iff, List.isPrefixOf]

theorem namesOnly_toDate (text : String) :
    namesOnly ("invalid toDate: " ++ text) "toDate" := by
  obtain ⟨h1, h2, h3, h4⟩ := namesParam_invalid_to text
  intro q hq
  simp only [checkOrder, List.mem_cons, List.mem_singleton, List.mem_nil_iff, or_false] at hq
  rcases hq with rfl | rfl | rfl | rfl
  · simp [h3]
  · simp [h4]
  · simp [h2]
  · simp [h1]

theorem invalid_fromDate_text (text : String) :
    "invalid " ++ "fromDate" ++ ": " ++ text = "invalid fromDate: " ++ text := by
  have h : "invalid " ++ "fromDate" ++ ": " = "invalid fromDate: " := by decide
  rw [h]

theorem invalid_toDate_text (text : String) :
    "invalid " ++ "toDate" ++ ": " ++ text = "invalid toDate: " ++ text := by
  have h : "invalid " ++ "toDate" ++ ": " = "invalid toDate: " := by decide
  rw [h]

theorem city_required_text :
    "city" ++ " is required and must be a string" = "city is required and must be a string" := by
  decide

theorem country_required_text :
    "country" ++ " is required and must be a string"
      = "country is required and must be a string" := by
  decide

theorem generateContent_mem_trace (env : Env) (c k : String) (f t : Time) (m : String)
    (contents : List (Option GContent))
    (h : Event.generateContent m contents ∈ (generateForecast env c k f t).trace) :
    m = "gemini-2.0-flash" ∧
      contents = [some { Parts := [some { Text := forecastPrompt c k f t }] }] := by
  unfold generateForecast at h
  simp only [] at h
  split_ifs at h
  · simp at h
  · split at h
    · simp at h
    · split at h
      · simpa using h
      · split_ifs at h
        · simpa using h
        · split at h
          · split at h
            · split at h <;> simpa using h
            · simpa using h
          · simpa using h

theorem generateContent_issued (env : Env) (c k : String) (f t : Time)
    (hkey : env.Getenv "GOOGLE_API_KEY" ≠ "")
    (hcl : env.newClient (env.Getenv "GOOGLE_API_KEY") = none) :
    Event.generateContent "gemini-2.0-flash"
        [some { Parts := [some { Text := forecastPrompt c k f t }] }]
      ∈ (generateForecast env c k f t).trace := by
  unfold generateForecast
  simp only [hkey, hcl, if_false]
  split
  · simp
  · split_ifs
    · simp
    · split
      · split
        · split <;> simp
        · simp
      · simp

/-- A missing country makes the handler return an error and no result. -/
theorem country_missing_fails (env : Env) (request : CallToolRequest)
    (h : request.Arguments.lookup "country" = none) :
    ∃ e, (weatherHandler env request).outcome = Outcome.returned (none, some e) := by
  cases hcity : requiredCheck request "city" with
  | some e => exact ⟨e, by rw [handler_city_fails env hcity]⟩
  | none =>
    obtain ⟨c, hc⟩ := requiredCheck_eq_none hcity
    exact ⟨_, by rw [handler_country_fails env hc (requiredCheck_of_missing h)]⟩

/-- When no check fails the handler reaches `generateForecast`. -/
theorem handler_calls_of_checks_pass (env : Env) (request : CallToolRequest)
    (h1 : requiredCheck request "city" = none) (h2 : requiredCheck request "country" = none)
    (h3 : dateCheck env request "fromDate" = none)
    (h4 : dateCheck env request "toDate" = none) :
    ∃ call, forecastCalls (weatherHandler env request).trace = [call] := by
  obtain ⟨c, hc1, hc2⟩ := requiredCheck_eq_none h1
  obtain ⟨k, hk1, hk2⟩ := requiredCheck_eq_none h2
  obtain ⟨d1, e1⟩ := dateStep_ok h3 env.now "invalid fromDate: "
  obtain ⟨d2, e2⟩ := dateStep_ok h4 d1 "invalid toDate: "
  have a1 : asString (request.Arguments.lookup "city") = (c, true) := by rw [hc1]; rfl
  have a2 : asString (request.Arguments.lookup "country") = (k, true) := by rw [hk1]; rfl
  refine ⟨(c, k, d1, d2), ?_⟩
  have hw : (weatherHandler env request).trace = (generateForecast env c k d1 d2).trace := by
    unfold weatherHandler
    simp only [a1, a2, hc2, hk2, Bool.not_true, Bool.false_or, decide_False,
      Bool.false_eq_true, if_false]
    rw [e1]
    simp only []
    rw [e2]
    simp only []
    split <;> rfl
  rw [hw]
  exact generateForecast_forecastCalls _ _ _ _ _

/-! ## The claims -/

/-- C1, as stated, fails on the request `{city: 5}`: `country` is missing from
the argument mapping, yet no error naming `country` is returned (the error is
that of the `city` check, which comes first). -/
theorem C1_counterexample :
    requestNumericCity.Arguments.lookup "country" = none ∧
    (weatherHandler envNoKey requestNumericCity).outcome =
      Outcome.returned (none, some "city is required and must be a string") ∧
    ¬ ∃ res e, (weatherHandler envNoKey requestNumericCity).outcome
        = Outcome.returned (res, some e) ∧ namesParam e "country" = true := by
  refine ⟨rfl, rfl, ?_⟩
  rintro ⟨res, e, h, hn⟩
  have h0 : (weatherHandler envNoKey requestNumericCity).outcome =
      Outcome.returned (none, some "city is required and must be a string") := rfl
  rw [h0] at h
  simp only [Outcome.returned.injEq, Prod.mk.injEq, Option.some.injEq] at h
  obtain ⟨_, rfl⟩ := h
  revert hn
  decide

/-- C1, amended: whenever `city` or `country` is missing from the argument
mapping, the handler makes no call at all (so `generateForecast` is not
invoked), returns no result, and returns an error that names exactly one
required parameter; that parameter is `city` whenever `city` is missing, and
more generally whenever the check of `city` fails (missing, not a string, or
empty), and it is `country` when `city` is a non-empty string. -/
theorem C1_missing_required (env : Env) (request : CallToolRequest)
    (h : request.Arguments.lookup "city" = none ∨
      request.Arguments.lookup "country" = none) :
    (weatherHandler env request).trace = [] ∧
    forecastCalls (weatherHandler env request).trace = [] ∧
    (∃ p e, (p = "city" ∨ p = "country") ∧
      (weatherHandler env request).outcome = Outcome.returned (none, some e) ∧
      namesOnly e p) ∧
    (request.Arguments.lookup "city" = none →
      (weatherHandler env request).outcome =
        Outcome.returned (none, some "city is required and must be a string")) ∧
    (∀ c, HasString request "city" c →
      (weatherHandler env request).outcome =
        Outcome.returned (none, some "country is required and must be a string")) ∧
    (∀ e, requiredCheck request "city" = some e →
      (weatherHandler env request).outcome =
        Outcome.returned (none, some "city is required and must be a string") ∧
      namesOnly "city is required and must be a string" "city" ∧
      namesParam "city is required and must be a string" "country" = false) := by
  have key : ∀ c, HasString request "city" c →
      weatherHandler env request =
        ⟨Outcome.returned (none, some "country is required and must be a string"), []⟩ := by
    intro c hc
    have hk : request.Arguments.lookup "country" = none := by
      rcases h with h | h
      · rw [hc.1] at h; simp at h
      · exact h
    have := handler_country_fails env hc (requiredCheck_of_missing hk)
    rwa [country_required_text] at this
  cases hcity : requiredCheck request "city" with
  | some e =>
    obtain ⟨rfl, _⟩ := requiredCheck_eq_some hcity
    have hw := handler_city_fails env hcity
    rw [city_required_text] at hw
    refine ⟨by rw [hw], by rw [hw]; rfl, ⟨"city", _, Or.inl rfl, by rw [hw], namesOnly_city⟩,
      fun _ => by rw [hw], fun c hc => by rw [key c hc],
      fun _ _ => ⟨by rw [hw], namesOnly_city, by decide⟩⟩
  | none =>
    obtain ⟨c, hc⟩ := requiredCheck_eq_none hcity
    have hw := key c hc
    refine ⟨by rw [hw], by rw [hw]; rfl,
      ⟨"country", _, Or.inr rfl, by rw [hw], namesOnly_country⟩, ?_, fun c hc => by rw [hw],
      ?_⟩
    · intro hmiss
      rw [hc.1] at hmiss
      simp at hmiss
    · intro e he
      simp at he

/-- C1, witness of the claim: the request `{city: "Warsaw"}` fails with the error
naming `country`, and no call is made; the request `{city: 5}` fails with the
error naming `city`. -/
theorem C1_witness :
    (weatherHandler envNoKey requestCityOnly).outcome =
      Outcome.returned (none, some "country is required and must be a string") ∧
    forecastCalls (weatherHandler envNoKey requestCityOnly).trace = [] ∧
    (weatherHandler envNoKey requestNumericCity).outcome =
      Outcome.returned (none, some "city is required and must be a string") :=
  ⟨(C1_missing_required envNoKey requestCityOnly (Or.inr rfl)).2.2.2.2.1 "Warsaw"
      ⟨rfl, by decide⟩,
    (C1_missing_required envNoKey requestCityOnly (Or.inr rfl)).2.1,
    ((C1_missing_required envNoKey requestNumericCity (Or.inr rfl)).2.2.2.2.2
      "city is required and must be a string" (by decide)).1⟩

/-- C2: with a valid city and country, a `fromDate` that is a non-empty string
but not a valid `YYYY-MM-DD` date makes the handler return no result and the
error `invalid fromDate: ...`, which names `fromDate` only and differs from the
errors for a missing city and for a missing country; no call is made, so
`generateForecast` is not invoked. -/
theorem C2_malformed_fromDate (env : Env) (request : CallToolRequest) (c k v : String)
    (hc : HasString request "city" c) (hk : HasString request "country" k)
    (hv : request.Arguments.lookup "fromDate" = some (Value.str v)) (hne : v ≠ "")
    (hbad : validYMD v = false) :
    (weatherHandler env request).outcome =
      Outcome.returned (none, some ("invalid fromDate: " ++ env.parseErrorText v)) ∧
    namesOnly ("invalid fromDate: " ++ env.parseErrorText v) "fromDate" ∧
    "invalid fromDate: " ++ env.parseErrorText v ≠ "city is required and must be a string" ∧
    "invalid fromDate: " ++ env.parseErrorText v
      ≠ "country is required and must be a string" ∧
    forecastCalls (weatherHandler env request).trace = [] := by
  have hw := handler_from_fails env hc hk (dateCheck_of_invalid env hv hne hbad)
  rw [invalid_fromDate_text] at hw
  have hd := invalid_ne_required "fromDate" (env.parseErrorText v)
  rw [invalid_fromDate_text] at hd
  exact ⟨by rw [hw], namesOnly_fromDate _, hd.1, hd.2, by rw [hw]; rfl⟩

/-- C2, witness: the request with `fromDate: "15/05/2025"`. -/
theorem C2_witness :
    (weatherHandler envNoKey requestSlashDate).outcome =
      Outcome.returned (none, some "invalid fromDate: cannot parse 15/05/2025") ∧
    forecastCalls (weatherHandler envNoKey requestSlashDate).trace = [] :=
  ⟨(C2_malformed_fromDate envNoKey requestSlashDate "Warsaw" "Poland" "15/05/2025"
      ⟨rfl, by decide⟩ ⟨rfl, by decide⟩ rfl (by decide) (by decide)).1,
    (C2_malformed_fromDate envNoKey requestSlashDate "Warsaw" "Poland" "15/05/2025"
      ⟨rfl, by decide⟩ ⟨rfl, by decide⟩ rfl (by decide) (by decide)).2.2.2.2⟩

/-- C3: on a request with valid city and country and with each date absent or
well formed, `generateForecast` is called exactly once, with `from` the parsed
`fromDate` if supplied and the current time otherwise, and `to` the parsed
`toDate` if supplied and the value of `from` otherwise; without `toDate` the
range is a single day, and without both dates both ends are the current time. -/
theorem C3_date_range (env : Env) (request : CallToolRequest) (c k : String)
    (fd td : Option Time) (hc : HasString request "city" c)
    (hk : HasString request "country" k) (hf : DateArg request "fromDate" fd)
    (ht : DateArg request "toDate" td) :
    forecastCalls (weatherHandler env request).trace =
      [(c, k, specFrom env.now fd, specTo (specFrom env.now fd) td)] ∧
    (request.Arguments.lookup "toDate" = none →
      forecastCalls (weatherHandler env request).trace =
        [(c, k, specFrom env.now fd, specFrom env.now fd)]) ∧
    (request.Arguments.lookup "fromDate" = none →
      request.Arguments.lookup "toDate" = none →
      forecastCalls (weatherHandler env request).trace = [(c, k, env.now, env.now)]) := by
  have hw := weatherHandler_of_valid env request hc hk hf ht
  have hcalls : forecastCalls (weatherHandler env request).trace =
      [(c, k, specFrom env.now fd, specTo (specFrom env.now fd) td)] := by
    rw [hw]
    exact generateForecast_forecastCalls _ _ _ _ _
  have htd : request.Arguments.lookup "toDate" = none → td = none := by
    intro h0
    rcases ht with ⟨_, h1⟩ | ⟨v, h1, _⟩
    · exact h1
    · rw [h0] at h1; simp at h1
  have hfd : request.Arguments.lookup "fromDate" = none → fd = none := by
    intro h0
    rcases hf with ⟨_, h1⟩ | ⟨v, h1, _⟩
    · exact h1
    · rw [h0] at h1; simp at h1
  refine ⟨hcalls, ?_, ?_⟩
  · intro h0
    rw [hcalls, htd h0]
    rfl
  · intro h0 h1
    rw [hcalls, htd h1, hfd h0]
    rfl

/-- C3, witness: the client's request, and the request without dates. -/
theorem C3_witness :
    forecastCalls (weatherHandler envServing clientRequest).trace =
      [("Warsaw", "Poland", { year := 2025, month := 5, day := 2, nanos := 0 },
        { year := 2025, month := 5, day := 15, nanos := 0 })] ∧
    forecastCalls (weatherHandler envServing requestNoDates).trace =
      [("Warsaw", "Poland", sampleNow, sampleNow)] :=
  ⟨(C3_date_range envServing clientRequest "Warsaw" "Poland"
      (some { year := 2025, month := 5, day := 2, nanos := 0 })
      (some { year := 2025, month := 5, day := 15, nanos := 0 })
      ⟨rfl, by decide⟩ ⟨rfl, by decide⟩
      (Or.inr ⟨"2025-05-02", rfl, by decide, by decide⟩)
      (Or.inr ⟨"2025-05-15", rfl, by decide, by decide⟩)).1,
    (C3_date_range envServing requestNoDates "Warsaw" "Poland" none none
      ⟨rfl, by decide⟩ ⟨rfl, by decide⟩ (Or.inl ⟨rfl, rfl⟩) (Or.inl ⟨rfl, rfl⟩)).2.2 rfl rfl⟩

/-- C4: on a request that passes validation, if forecast generation returns the
text `t` without error, the handler returns no error and a result that is not
flagged as an error and whose content is exactly one block, a text block with
text `t`. -/
theorem C4_success_result (env : Env) (request : CallToolRequest) (c k : String)
    (fd td : Option Time) (t : String) (hc : HasString request "city" c)
    (hk : HasString request "country" k) (hf : DateArg request "fromDate" fd)
    (ht : DateArg request "toDate" td)
    (hgen : (generateForecast env c k (specFrom env.now fd)
      (specTo (specFrom env.now fd) td)).outcome = Outcome.returned (t, none)) :
    ∃ r, (weatherHandler env request).outcome = Outcome.returned (some r, none) ∧
      r.IsError = false ∧
      r.Content = [Content.text { Type_ := "text", Text := t }] ∧
      r.Content.map AsTextContent = [some { Type_ := "text", Text := t }] := by
  have hw := weatherHandler_of_valid env request hc hk hf ht
  rw [hgen] at hw
  exact ⟨NewToolResultText t, by rw [hw], rfl, rfl, rfl⟩

/-- C4, witness: the request of the client against a service that answers. -/
theorem C4_witness :
    ∃ r, (weatherHandler envServing clientRequest).outcome = Outcome.returned (some r, none) ∧
      r.IsError = false ∧
      r.Content = [Content.text { Type_ := "text", Text := "2025-05-02: 18C, sunny" }] ∧
      r.Content.map AsTextContent
        = [some { Type_ := "text", Text := "2025-05-02: 18C, sunny" }] :=
  C4_success_result envServing clientRequest "Warsaw" "Poland"
    (some { year := 2025, month := 5, day := 2, nanos := 0 })
    (some { year := 2025, month := 5, day := 15, nanos := 0 })
    "2025-05-02: 18C, sunny" ⟨rfl, by decide⟩ ⟨rfl, by decide⟩
    (Or.inr ⟨"2025-05-02", rfl, by decide, by decide⟩)
    (Or.inr ⟨"2025-05-15", rfl, by decide, by decide⟩) rfl

/-- C7: the registered tool is named `weather` and declares the four parameters
city, country, fromDate, toDate in this order, all of type string, with exactly
city and country required; and a declared parameter is required exactly when
its absence from the mapping makes every call of the handler fail. -/
theorem C7_tool_descriptor :
    tool.Name = "weather" ∧
    tool.Properties.map Prod.fst = ["city", "country", "fromDate", "toDate"] ∧
    (∀ p ∈ tool.Properties, p.2.Type_ = "string") ∧
    tool.Required = ["city", "country"] ∧
    (∀ p ∈ tool.Properties.map Prod.fst,
      (∀ env request, request.Arguments.lookup p = none → Fails (weatherHandler env request))
        ↔ p ∈ tool.Required) := by
  have hnames : tool.Properties.map Prod.fst = ["city", "country", "fromDate", "toDate"] := by
    decide
  have hreq : tool.Required = ["city", "country"] := by decide
  refine ⟨by decide, hnames, by decide, hreq, ?_⟩
  intro p hp
  rw [hnames] at hp
  rw [hreq]
  simp only [List.mem_cons, List.mem_singleton, List.mem_nil_iff, or_false] at hp
  have hopt : (weatherHandler envServing requestNoDates).outcome =
      Outcome.returned (some (NewToolResultText "2025-05-02: 18C, sunny"), none) := rfl
  rcases hp with rfl | rfl | rfl | rfl
  · constructor
    · intro _; decide
    · intro _ env request h
      exact ⟨none, _, by rw [handler_city_fails env (requiredCheck_of_missing h)]⟩
  · constructor
    · intro _; decide
    · intro _ env request h
      obtain ⟨e, he⟩ := country_missing_fails env request h
      exact ⟨none, e, he⟩
  · constructor
    · intro h
      obtain ⟨res, e, he⟩ := h envServing requestNoDates rfl
      rw [hopt] at he
      simp at he
    · intro h
      exact absurd h (by decide)
  · constructor
    · intro h
      obtain ⟨res, e, he⟩ := h envServing requestNoDates rfl
      rw [hopt] at he
      simp at he
    · intro h
      exact absurd h (by decide)

/-- C8: the handler returns the error of the first failing check in the order
city, country, fromDate, toDate, makes no call, and the error names the
parameter of that check only; when no check fails it goes on to call
`generateForecast`.  So: city and country both missing, the error names city;
city valid, country missing and fromDate malformed, it names country; city and
country valid, fromDate and toDate both malformed, it names fromDate. -/
theorem C8_first_failing_check (env : Env) (request : CallToolRequest) :
    (∀ p e, firstFailure env request = some (p, e) →
      (weatherHandler env request).outcome = Outcome.returned (none, some e) ∧
      (weatherHandler env request).trace = [] ∧ namesOnly e p) ∧
    (firstFailure env request = none →
      ∃ call, forecastCalls (weatherHandler env request).trace = [call]) ∧
    (request.Arguments.lookup "city" = none → request.Arguments.lookup "country" = none →
      ∃ e, (weatherHandler env request).outcome = Outcome.returned (none, some e) ∧
        namesOnly e "city") ∧
    (∀ c v, HasString request "city" c → request.Arguments.lookup "country" = none →
      request.Arguments.lookup "fromDate" = some (Value.str v) → v ≠ "" →
      validYMD v = false →
      ∃ e, (weatherHandler env request).outcome = Outcome.returned (none, some e) ∧
        namesOnly e "country") ∧
    (∀ c k v w, HasString request "city" c → HasString request "country" k →
      request.Arguments.lookup "fromDate" = some (Value.str v) → v ≠ "" →
      validYMD v = false →
      request.Arguments.lookup "toDate" = some (Value.str w) → w ≠ "" →
      validYMD w = false →
      ∃ e, (weatherHandler env request).outcome = Outcome.returned (none, some e) ∧
        namesOnly e "fromDate") := by
  refine ⟨?_, ?_, ?_, ?_, ?_⟩
  · intro p e h
    unfold firstFailure at h
    cases h1 : requiredCheck request "city" with
    | some e1 =>
      simp only [List.findSome?, h1, Option.map_some', Option.some.injEq, Prod.mk.injEq] at h
      obtain ⟨rfl, rfl⟩ := h
      have hw := handler_city_fails env h1
      obtain ⟨rfl, _⟩ := requiredCheck_eq_some h1
      rw [city_required_text] at hw ⊢
      exact ⟨by rw [hw], by rw [hw], namesOnly_city⟩
    | none =>
      obtain ⟨c, hc⟩ := requiredCheck_eq_none h1
      cases h2 : requiredCheck request "country" with
      | some e2 =>
        simp only [List.findSome?, h1, h2, Option.map_some', Option.map_none',
          Option.some.injEq, Prod.mk.injEq] at h
        obtain ⟨rfl, rfl⟩ := h
        have hw := handler_country_fails env hc h2
        obtain ⟨rfl, _⟩ := requiredCheck_eq_some h2
        rw [country_required_text] at hw ⊢
        exact ⟨by rw [hw], by rw [hw], namesOnly_country⟩
      | none =>
        obtain ⟨k, hk⟩ := requiredCheck_eq_none h2
        cases h3 : dateCheck env request "fromDate" with
        | some e3 =>
          simp only [List.findSome?, h1, h2, h3, Option.map_some', Option.map_none',
            Option.some.injEq, Prod.mk.injEq] at h
          obtain ⟨rfl, rfl⟩ := h
          have hw := handler_from_fails env hc hk h3
          obtain ⟨v, _, _, _, rfl⟩ := dateCheck_eq_some h3
          rw [invalid_fromDate_text] at hw ⊢
          exact ⟨by rw [hw], by rw [hw], namesOnly_fromDate _⟩
        | none =>
          cases h4 : dateCheck env request "toDate" with
          | some e4 =>
            simp only [List.findSome?, h1, h2, h3, h4, Option.map_some', Option.map_none',
              Option.some.injEq, Prod.mk.injEq] at h
            obtain ⟨rfl, rfl⟩ := h
            have hw := handler_to_fails env hc hk h3 h4
            obtain ⟨v, _, _, _, rfl⟩ := dateCheck_eq_some h4
            rw [invalid_toDate_text] at hw ⊢
            exact ⟨by rw [hw], by rw [hw], namesOnly_toDate _⟩
          | none =>
            simp [List.findSome?, h1, h2, h3, h4] at h
  · intro h
    unfold firstFailure at h
    cases h1 : requiredCheck request "city" with
    | some e1 => simp [List.findSome?, h1] at h
    | none =>
      cases h2 : requiredCheck request "country" with
      | some e2 => simp [List.findSome?, h1, h2] at h
      | none =>
        cases h3 : dateCheck env request "fromDate" with
        | some e3 => simp [List.findSome?, h1, h2, h3] at h
        | none =>
          cases h4 : dateCheck env request "toDate" with
          | some e4 => simp [List.findSome?, h1, h2, h3, h4] at h
          | none => exact handler_calls_of_checks_pass env request h1 h2 h3 h4
  · intro h1 _
    have hw := handler_city_fails env (requiredCheck_of_missing h1)
    rw [city_required_text] at hw
    exact ⟨_, by rw [hw], namesOnly_city⟩
  · intro c v hc hk _ _ _
    have hw := handler_country_fails env hc (requiredCheck_of_missing hk)
    rw [country_required_text] at hw
    exact ⟨_, by rw [hw], namesOnly_country⟩
  · intro c k v w hc hk hv hne hbad _ _ _
    have hw := handler_from_fails env hc hk (dateCheck_of_invalid env hv hne hbad)
    rw [invalid_fromDate_text] at hw
    exact ⟨_, by rw [hw], namesOnly_fromDate _⟩

/-- C8, witness: a request with both dates malformed fails on `fromDate`. -/
theorem C8_witness :
    (weatherHandler envNoKey requestTwoBadDates).outcome =
      Outcome.returned (none, some "invalid fromDate: cannot parse 15/05/2025") ∧
    (weatherHandler envNoKey requestTwoBadDates).trace = [] :=
  ⟨((C8_first_failing_check envNoKey requestTwoBadDates).1 "fromDate"
      "invalid fromDate: cannot parse 15/05/2025" (by decide)).1,
    ((C8_first_failing_check envNoKey requestTwoBadDates).1 "fromDate"
      "invalid fromDate: cannot parse 15/05/2025" (by decide)).2.1⟩

/-- C9, at the failing input: the service answers without error with one
candidate whose `Content` is nil; `generateForecast` then neither returns the
concatenation nor an error, it panics, and so does the handler. -/
theorem C9_nil_content_panics :
    envBlocked.generateContent "k-123" "gemini-2.0-flash"
      [some { Parts := [some { Text := forecastPrompt "Warsaw" "Poland" sampleNow sampleNow }] }]
      = Except.ok { Candidates := [some { Content := none }] } ∧
    (generateForecast envBlocked "Warsaw" "Poland" sampleNow sampleNow).outcome
      = Outcome.panicked ∧
    (weatherHandler envBlocked requestNoDates).outcome = Outcome.panicked :=
  ⟨rfl, rfl, rfl⟩

/-- C10: with valid city `c` and country `k` and with `fromDate` `v` and `toDate`
`w` both accepted by the parser, formatting the parsed dates gives `v` and `w`
back, the prompt is the fixed sentence filled with `c`, `k`, `v` and `w`, every
generation request of the run carries exactly that prompt for the model
`gemini-2.0-flash`, and such a request is issued whenever the credential is set
and the client is created. -/
theorem C10_prompt_round_trip (env : Env) (request : CallToolRequest) (c k v w : String)
    (dv dw : Time) (hc : HasString request "city" c) (hk : HasString request "country" k)
    (hv : request.Arguments.lookup "fromDate" = some (Value.str v))
    (hw : request.Arguments.lookup "toDate" = some (Value.str w))
    (pv : time.Parse v = some dv) (pw : time.Parse w = some dw) :
    dv.Format = v ∧ dw.Format = w ∧
    forecastPrompt c k dv dw =
      "Provide a concise weather forecast for " ++ c ++ ", " ++ k ++ " from " ++ v ++ " to "
        ++ w ++ " in Celsius. Include date, temperature, and a brief description." ∧
    (∀ m contents, Event.generateContent m contents ∈ (weatherHandler env request).trace →
      m = "gemini-2.0-flash" ∧
      contents = [some { Parts := [some { Text :=
        "Provide a concise weather forecast for " ++ c ++ ", " ++ k ++ " from " ++ v ++ " to "
          ++ w ++ " in Celsius. Include date, temperature, and a brief description." }] }]) ∧
    (env.Getenv "GOOGLE_API_KEY" ≠ "" → env.newClient (env.Getenv "GOOGLE_API_KEY") = none →
      Event.generateContent "gemini-2.0-flash" [some { Parts := [some { Text :=
        "Provide a concise weather forecast for " ++ c ++ ", " ++ k ++ " from " ++ v ++ " to "
          ++ w ++ " in Celsius. Include date, temperature, and a brief description." }] }]
        ∈ (weatherHandler env request).trace) := by
  have fv := Format_of_Parse pv
  have fw := Format_of_Parse pw
  have hp : forecastPrompt c k dv dw =
      "Provide a concise weather forecast for " ++ c ++ ", " ++ k ++ " from " ++ v ++ " to "
        ++ w ++ " in Celsius. Include date, temperature, and a brief description." := by
    simp only [forecastPrompt, fv, fw]
  have hf : DateArg request "fromDate" (some dv) :=
    Or.inr ⟨v, hv, (Parse_isSome_iff_validYMD v).mp ⟨dv, pv⟩, pv.symm⟩
  have ht : DateArg request "toDate" (some dw) :=
    Or.inr ⟨w, hw, (Parse_isSome_iff_validYMD w).mp ⟨dw, pw⟩, pw.symm⟩
  have hrun := weatherHandler_of_valid env request hc hk hf ht
  have htr : (weatherHandler env request).trace = (generateForecast env c k dv dw).trace := by
    rw [hrun]
    rfl
  refine ⟨fv, fw, hp, ?_, ?_⟩
  · intro m contents hmem
    rw [htr] at hmem
    have := generateContent_mem_trace env c k dv dw m contents hmem
    rw [hp] at this
    exact this
  · intro hkey hcl
    rw [htr, ← hp]
    exact generateContent_issued env c k dv dw hkey hcl

/-- C10, witness: Warsaw, Poland, 2025-05-02, 2025-05-15. -/
theorem C10_witness :
    Event.generateContent "gemini-2.0-flash" [some { Parts := [some { Text :=
      "Provide a concise weather forecast for Warsaw, Poland from 2025-05-02 to 2025-05-15 in Celsius. Include date, temperature, and a brief description." }] }]
      ∈ (weatherHandler envServing clientRequest).trace :=
  (C10_prompt_round_trip envServing clientRequest "Warsaw" "Poland" "2025-05-02" "2025-05-15"
    { year := 2025, month := 5, day := 2, nanos := 0 }
    { year := 2025, month := 5, day := 15, nanos := 0 }
    ⟨rfl, by decide⟩ ⟨rfl, by decide⟩ rfl rfl (by decide) (by decide)).2.2.2.2
    (by decide) (by decide)

end WeatherForecast
